import Mathlib

/-!
# Verification of the vault-embeddings core

Shallow embedding of the embedding-store / synchronization / search core of the
obsidian-vault-embeddings plugin, together with proofs checking the natural-language
specification against it.

Conventions of the embedding:
* JS numbers that carry vector data are modelled as exact rationals (`ℚ`);
  `Math.sqrt` is modelled by `ratSqrt`, which is exact on perfect squares and,
  like the real square root, is zero exactly on non-positive inputs.
* Timestamps (`Date.now()`, `new Date()`) are modelled as natural numbers
  (milliseconds) passed explicitly as a `now` parameter.
* `async`/`await` sequencing is modelled by explicit state passing; `throw` by
  `Except`.
* The content hasher (Web-Crypto SHA-256) and the remote embedding provider are
  external collaborators; they enter the model as opaque function fields of an
  environment record.
-/

namespace VaultEmb
instance {ε α : Type _} [DecidableEq ε] [DecidableEq α] : DecidableEq (Except ε α) := fun a b =>
  match a, b with
  | .ok x, .ok y => if h : x = y then .isTrue (by rw [h]) else .isFalse (by simp [h])
  | .error x, .error y => if h : x = y then .isTrue (by rw [h]) else .isFalse (by simp [h])
  | .ok _, .error _ => .isFalse (by simp)
  | .error _, .ok _ => .isFalse (by simp)

/-- Error taxonomy of the core (thrown `Error`s in the source). -/

inductive EmbedError where
  /-- `Note not found: ${noteId}` -/
  | noteNotFound (noteId : String)
  /-- `Vector dimensions must match` -/
  | dimensionMismatch
  /-- a failed remote provider call -/
  | providerCallFailed
  /-- JS `TypeError: x is not a function`: a method was invoked that the
      receiving object does not define -/
  | methodMissing (name : String)
deriving Repr, DecidableEq

/-! ## Domain entities (src/core/domain/entities/note-embedding.ts) -/

/-- Entity `NoteEmbedding`: one stored embedding record per note. -/

structure NoteEmbedding where
  noteId : String
  notePath : String
  title : String
  contentHash : String
  vector : List ℚ
  model : String
  provider : String
  dimensions : Nat
  createdAt : Nat
  updatedAt : Nat
deriving Repr, DecidableEq

/-- Helper `createNoteEmbedding(params)`: builds a record stamping both timestamps with
    the same `new Date()` value (`now`). -/

def createNoteEmbedding (noteId notePath title contentHash : String) (vector : List ℚ)
    (model provider : String) (dimensions : Nat) (now : Nat) : NoteEmbedding :=
  { noteId := noteId, notePath := notePath, title := title, contentHash := contentHash
    vector := vector, model := model, provider := provider, dimensions := dimensions
    createdAt := now, updatedAt := now }

/-! ## Content hash comparison (src/core/domain/value-objects/content-hash.ts) -/

/-- Comparison `isHashEqual(hash1, hash2)`: `false` when either side is `null`, else strict
    string equality. -/

def isHashEqual : Option String → Option String → Bool
  | none, _ => false
  | _, none => false
  | some h1, some h2 => h1 == h2

/-! ## Cosine similarity (SearchSimilarUseCase.cosineSimilarity) -/

/-- Model of `Math.sqrt` on rationals: exact on perfect-square rationals and
    zero exactly on non-positive inputs, which is all the proofs rely on. -/

def ratSqrt (x : ℚ) : ℚ := (Nat.sqrt x.num.toNat : ℚ) / (Nat.sqrt x.den : ℚ)

/-- Scoring function `cosineSimilarity(a, b)`: throws on a length mismatch; accumulates the dot
    product and both squared norms in one pass; yields `0` when the denominator
    `sqrt(normA) * sqrt(normB)` is `0`. -/

def cosineSimilarity (a b : List ℚ) : Except EmbedError ℚ :=
  if a.length ≠ b.length then .error .dimensionMismatch
  else
    let dotProduct := ((a.zip b).map fun p => p.1 * p.2).sum
    let normA := (a.map fun x => x * x).sum
    let normB := (b.map fun x => x * x).sum
    let denominator := ratSqrt normA * ratSqrt normB
    if denominator = 0 then .ok 0
    else .ok (dotProduct / denominator)

/-! ## Embedding store (src/adapters/storage/vault-embedding-repository.ts)

The persistent layout is one JSON file per record (named by a filesystem-safe
transform of the note id) plus one summary file `index.json`, with an in-memory
summary cache.  File contents are modelled as the parsed records themselves; a
read of a stored record always parses in the model, because only `save` writes
record files here. -/

/-- Lightweight per-note projection held in the index summary. -/

structure IndexEntry where
  path : String
  contentHash : String
  updatedAt : Nat
deriving Repr, DecidableEq

/-- Structure `EmbeddingIndex`: the summary file. -/

structure EmbeddingIndex where
  version : String
  totalNotes : Nat
  lastUpdated : Nat
  model : String
  dimensions : Nat
  notes : List (String × IndexEntry)
deriving Repr, DecidableEq

/-- Insertion-ordered string-keyed map lookup (JS object / `Map` access). -/

def findEntry? {α : Type _} (k : String) : List (String × α) → Option α
  | [] => none
  | (k', v) :: rest => if k' = k then some v else findEntry? k rest

/-- JS object / `Map` assignment: overwrite in place when the key exists,
    append otherwise (insertion order is preserved). -/

def setEntry {α : Type _} (k : String) (v : α) (l : List (String × α)) : List (String × α) :=
  if l.any (fun p => p.1 = k) then l.map (fun p => if p.1 = k then (k, v) else p)
  else l ++ [(k, v)]

/-- Key removal (file deletion). -/

def eraseEntry {α : Type _} (k : String) (l : List (String × α)) : List (String × α) :=
  l.filter (fun p => p.1 ≠ k)

/-- JS `s.startsWith(pre)`, stated on the underlying character sequences. -/

def jsStartsWith (s pre : String) : Bool := pre.data.isPrefixOf s.data

/-- From `getEmbeddingPath`: `noteId.replace(/[^a-zA-Z0-9-_]/g, '_')`, the
    filesystem-safe file name of a record. -/

def safeId (noteId : String) : String :=
  ⟨noteId.data.map (fun c => if c.isAlphanum || c = '-' || c = '_' then c else '_')⟩

/-- State of a `VaultEmbeddingRepository`: the record files keyed by
    `safeId noteId`, the persisted `index.json`, and the in-memory cache. -/

structure StoreState where
  files : List (String × NoteEmbedding)
  indexFile : EmbeddingIndex
  cache : Option EmbeddingIndex
deriving Repr, DecidableEq

/-- Method `createEmptyIndex()`. -/

def createEmptyIndex (now : Nat) : EmbeddingIndex :=
  { version := "1.0.0", totalNotes := 0, lastUpdated := now
    model := "", dimensions := 0, notes := [] }

/-- Store right after `initialize()` on fresh storage: empty records folder and a
    freshly written empty summary (`saveIndex` also primes the cache). -/

def initialStore (now : Nat) : StoreState :=
  { files := [], indexFile := createEmptyIndex now, cache := some (createEmptyIndex now) }

/-- Method `save(embedding)`: write the record file, then invalidate the summary cache. -/

def StoreState.save (s : StoreState) (e : NoteEmbedding) : StoreState :=
  { s with files := setEntry (safeId e.noteId) e s.files, cache := none }

/-- Method `findById(noteId)`: read and parse the record file, `null` when absent. -/

def StoreState.findById (s : StoreState) (noteId : String) : Option NoteEmbedding :=
  findEntry? (safeId noteId) s.files

/-- Method `delete(noteId)`: remove the record file (idempotent), then invalidate the
    summary cache. -/

def StoreState.delete (s : StoreState) (noteId : String) : StoreState :=
  { s with files := eraseEntry (safeId noteId) s.files, cache := none }

/-- Method `getIndex()`: serve from the cache when primed, otherwise read `index.json`
    and prime the cache with it. -/

def StoreState.getIndex (s : StoreState) : EmbeddingIndex × StoreState :=
  match s.cache with
  | some i => (i, s)
  | none => (s.indexFile, { s with cache := some s.indexFile })

/-- Method `getContentHash(noteId)`: `index.notes[noteId]?.contentHash || null` — note
    the `||`, which coerces an empty stored hash to `null`. -/

def StoreState.getContentHash (s : StoreState) (noteId : String) :
    Option String × StoreState :=
  (match findEntry? noteId ((s.getIndex).1).notes with
   | some entry => if entry.contentHash = "" then none else some entry.contentHash
   | none => none, (s.getIndex).2)

/-- Method `findAll()`: materialize every record listed in the summary mapping,
    silently dropping entries whose record file is missing or unreadable. -/

def StoreState.findAll (s : StoreState) : List NoteEmbedding × StoreState :=
  (((s.getIndex).1).notes.filterMap (fun p => ((s.getIndex).2).findById p.1), (s.getIndex).2)

/-- Method `updateIndex()`: full rebuild of the summary by scanning every record file,
    then `saveIndex` (which also primes the cache). -/

def StoreState.updateIndex (s : StoreState) (now : Nat) : StoreState :=
  let notes := s.files.foldl
    (fun acc p => setEntry p.2.noteId
      ⟨p.2.notePath, p.2.contentHash, p.2.updatedAt⟩ acc) []
  let model := s.files.foldl (fun m p => if m = "" then p.2.model else m) ""
  let dimensions := s.files.foldl (fun d p => if d = 0 then p.2.dimensions else d) 0
  let index : EmbeddingIndex :=
    { version := "1.0.0", totalNotes := notes.length, lastUpdated := now
      model := model, dimensions := dimensions, notes := notes }
  { s with indexFile := index, cache := some index }

/-- Method names the `VaultEmbeddingRepository` class body defines (likewise the
    `IEmbeddingRepository` interface; the two lists coincide).  Notably there is
    no `updateIndexEntry` among them. -/

def vaultEmbeddingRepositoryMethods : List String :=
  ["initialize", "save", "saveBatch", "findById", "findByPath", "findAll", "delete",
   "exists", "getContentHash", "updateIndex", "getIndex", "count", "clear"]

/-- The `updateIndexEntry` member of `VaultEmbeddingRepository`, were it defined.
    Neither the class (vault-embedding-repository.ts) nor the
    `IEmbeddingRepository` interface declares or implements such a method, so the
    slot is empty; `EmbeddingService` nevertheless invokes it. -/

def updateIndexEntryImpl? : Option (NoteEmbedding → Nat → StoreState → StoreState) := none

/-! ## Note source (ObsidianNoteRepository over the vault) -/

/-- Structure `NoteContent`: a resolved document.  `noteId` is `generateNoteId(path)`,
    which the source derives deterministically from the (normalized) path. -/

structure NoteContent where
  noteId : String
  path : String
  title : String
  content : String
  modifiedAt : Nat
deriving Repr, DecidableEq

/-- The environment a synchronization run sees: the vault's notes, the content
    hasher (Web-Crypto SHA-256, opaque here), and the active embedding provider
    (its `embed` network call, opaque here, together with `getModel()`,
    `getProvider()` and `getDimensions()`). -/

structure Env where
  notes : List NoteContent
  hashFn : String → String
  embedResult : String → Except EmbedError (List ℚ)
  model : String
  provider : String
  dimensions : Nat

/-- Method `noteRepository.findById(noteId)`: scan the vault for the file whose
    generated id matches. -/

def Env.findNote (env : Env) (noteId : String) : Option NoteContent :=
  env.notes.find? (fun n => n.noteId = noteId)

/-- Method `findAllExcluding(excludedFolders)`: every markdown note whose (normalized)
    path neither lies under an excluded folder nor equals one. -/

def Env.findAllExcluding (env : Env) (excludedFolders : List String) : List NoteContent :=
  env.notes.filter (fun n =>
    ¬ excludedFolders.any (fun folder =>
        jsStartsWith n.path (folder ++ "/") || n.path = folder))

/-! ## EmbedNote use case (src/core/application/use-cases/embed-note.ts) -/

/-- Structure `EmbedNoteResult`. -/

structure EmbedNoteResult where
  embedding : NoteEmbedding
  wasUpdated : Bool
  reason : String
deriving Repr, DecidableEq

/-- The staleness check of `EmbedNoteUseCase.execute` (its lines 44–60): the
    stored record to return untouched when the stored hash matches the current
    one and the stored record carries the active provider and model. -/

def skipCheck (env : Env) (noteId : String) (existingHash : Option String)
    (currentHash : String) (s₁ : StoreState) : Option NoteEmbedding :=
  if isHashEqual existingHash (some currentHash) then
    match s₁.findById noteId with
    | some existing =>
      if existing.provider = env.provider ∧ existing.model = env.model then
        some existing
      else none
    | none => none
  else none

/-- Method `EmbedNoteUseCase.execute(noteId, preloadedNote?)`.  Returns the result, the
    store state after the call, and the number of provider `embed` calls made. -/

def execute (env : Env) (now : Nat) (noteId : String) (preloadedNote : Option NoteContent)
    (s : StoreState) : Except EmbedError (EmbedNoteResult × StoreState × Nat) :=
  match preloadedNote.orElse (fun _ => env.findNote noteId) with
  | none => .error (.noteNotFound noteId)
  | some note =>
    match skipCheck env noteId (s.getContentHash noteId).1 (env.hashFn note.content)
        (s.getContentHash noteId).2 with
    | some existing =>
      .ok ({ embedding := existing, wasUpdated := false, reason := "skipped" },
        (s.getContentHash noteId).2, 0)
    | none =>
      match env.embedResult note.content with
      | .error e => .error e
      | .ok vector =>
        let embedding := createNoteEmbedding noteId note.path note.title
          (env.hashFn note.content) vector env.model env.provider env.dimensions now
        .ok ({ embedding := embedding, wasUpdated := true
               reason := if (s.getContentHash noteId).1.isSome then "stale" else "new" },
          ((s.getContentHash noteId).2).save embedding, 1)

/-! ## EmbeddingService (core/application/services/embedding-service.ts) -/

/-- Method `EmbeddingService.embedNote(noteId)`: run the use case and, when the record
    was written, invoke `embeddingRepository.updateIndexEntry(...)` — a method
    the repository does not define, which in JS raises a `TypeError` at the call
    site. -/

def embedNote (env : Env) (now : Nat) (noteId : String) (s : StoreState) :
    Except EmbedError (EmbedNoteResult × StoreState) := do
  let (result, s₁, _) ← execute env now noteId none s
  if result.wasUpdated then
    match updateIndexEntryImpl? with
    | some impl => pure (result, impl result.embedding now s₁)
    | none => throw (.methodMissing "updateIndexEntry")
  else
    pure (result, s₁)

/-- Structure `BatchEmbedProgress`: the mutable progress record of one batch run. -/

structure BatchEmbedProgress where
  total : Nat
  completed : Nat
  skipped : Nat
  failed : Nat
  currentNote : Option String
deriving Repr, DecidableEq

/-- Aggregate result of `embedAllNotes`. -/

structure BatchResult where
  success : Nat
  skipped : Nat
  failed : Nat
deriving Repr, DecidableEq

/-- Loop body of `embedAllNotes`: for each note, name it in `currentNote` and
    report progress, then run the use case under `try`/`catch`, counting a
    `skipped` reason and every completion, and counting (not propagating) any
    thrown error.  The emitted list records the snapshot an `onProgress`
    observer sees at each invocation. -/

def embedAllLoop (env : Env) (now : Nat) (notes : List NoteContent) (s : StoreState)
    (p : BatchEmbedProgress) (calls : List BatchEmbedProgress) :
    StoreState × BatchEmbedProgress × List BatchEmbedProgress :=
  match notes with
  | [] => (s, p, calls)
  | note :: rest =>
    let p₁ := { p with currentNote := some note.path }
    let calls₁ := calls ++ [p₁]
    match execute env now note.noteId none s with
    | .ok (result, s', _) =>
      let p₂ :=
        if result.reason = "skipped" then
          { p₁ with skipped := p₁.skipped + 1, completed := p₁.completed + 1 }
        else
          { p₁ with completed := p₁.completed + 1 }
      embedAllLoop env now rest s' p₂ calls₁
    | .error _ =>
      embedAllLoop env now rest s { p₁ with failed := p₁.failed + 1 } calls₁

/-- Method `EmbeddingService.embedAllNotes(excludeFolders, onProgress)`.  Returns the
    aggregate counts, the final store state, and the sequence of `onProgress`
    invocations. -/

def embedAllNotes (env : Env) (now : Nat) (excludeFolders : List String) (s : StoreState) :
    BatchResult × StoreState × List BatchEmbedProgress :=
  let notes := env.findAllExcluding excludeFolders
  let p₀ : BatchEmbedProgress :=
    { total := notes.length, completed := 0, skipped := 0, failed := 0, currentNote := none }
  let (s₁, p, calls) := embedAllLoop env now notes s p₀ []
  let pFinal := { p with currentNote := none }
  let callsFinal := calls ++ [pFinal]
  let s₂ := s₁.updateIndex now
  ({ success := p.completed - p.skipped, skipped := p.skipped, failed := p.failed },
   s₂, callsFinal)

/-- Loop body of `embedStaleNotes`: hash each note, compare with the stored
    hash, and only run the use case when they differ; failures are counted, not
    propagated. -/

def embedStaleLoop (env : Env) (now : Nat) (notes : List NoteContent) (s : StoreState)
    (p : BatchEmbedProgress) (updated : Nat) (calls : List BatchEmbedProgress) :
    StoreState × BatchEmbedProgress × Nat × List BatchEmbedProgress :=
  match notes with
  | [] => (s, p, updated, calls)
  | note :: rest =>
    let p₁ := { p with currentNote := some note.path }
    let calls₁ := calls ++ [p₁]
    let currentHash := env.hashFn note.content
    let (existingHash, s₁) := s.getContentHash note.noteId
    if isHashEqual existingHash (some currentHash) then
      embedStaleLoop env now rest s₁
        { p₁ with skipped := p₁.skipped + 1, completed := p₁.completed + 1 } updated calls₁
    else
      match execute env now note.noteId none s₁ with
      | .ok (_, s₂, _) =>
        embedStaleLoop env now rest s₂ { p₁ with completed := p₁.completed + 1 }
          (updated + 1) calls₁
      | .error _ =>
        embedStaleLoop env now rest s₁ { p₁ with failed := p₁.failed + 1 } updated calls₁

/-- Method `EmbeddingService.embedStaleNotes(excludeFolders, onProgress)`. -/

def embedStaleNotes (env : Env) (now : Nat) (excludeFolders : List String) (s : StoreState) :
    (Nat × Nat × Nat) × StoreState × List BatchEmbedProgress :=
  let notes := env.findAllExcluding excludeFolders
  let p₀ : BatchEmbedProgress :=
    { total := notes.length, completed := 0, skipped := 0, failed := 0, currentNote := none }
  let (s₁, p, updated, calls) := embedStaleLoop env now notes s p₀ 0 []
  let pFinal := { p with currentNote := none }
  let callsFinal := calls ++ [pFinal]
  let s₂ := s₁.updateIndex now
  ((updated, p.skipped, p.failed), s₂, callsFinal)

/-! ## Similarity search (core/application/use-cases/search-similar.ts and
    src/core/domain/value-objects/search-result.ts) -/

/-- Value object `SearchResult`. -/

structure SearchResult where
  noteId : String
  notePath : String
  title : String
  similarity : ℚ
deriving Repr, DecidableEq

/-- Options record `SearchOptions`; omitted fields fall back to the destructuring defaults
    `limit = 10`, `threshold = 0.3`, `excludeNoteIds = []`, `excludeFolders = []`. -/

structure SearchOptions where
  limit : Option Nat := none
  threshold : Option ℚ := none
  excludeNoteIds : Option (List String) := none
  excludeFolders : Option (List String) := none

/-- Function `sortBySimilarity(results)`: `[...results].sort((a, b) => b.similarity -
    a.similarity)` — a stable descending sort. -/

def sortBySimilarity (results : List SearchResult) : List SearchResult :=
  results.mergeSort (fun a b => b.similarity ≤ a.similarity)

/-- Function `limitResults(results, limit)`: `results.slice(0, limit)`. -/

def limitResults (results : List SearchResult) (limit : Nat) : List SearchResult :=
  results.take limit

/-- The per-record loop of `SearchSimilarUseCase.execute`: skip excluded ids,
    skip paths under an excluded folder (prefix + `/` only), score the rest, and
    keep scores at or above the threshold. -/

def searchLoop (queryVector : List ℚ) (threshold : ℚ) (excludeNoteIds : List String)
    (excludeFolders : List String) :
    List NoteEmbedding → Except EmbedError (List SearchResult)
  | [] => .ok []
  | embedding :: rest =>
    if excludeNoteIds.contains embedding.noteId then
      searchLoop queryVector threshold excludeNoteIds excludeFolders rest
    else if excludeFolders.any (fun folder => jsStartsWith embedding.notePath (folder ++ "/")) then
      searchLoop queryVector threshold excludeNoteIds excludeFolders rest
    else
      match cosineSimilarity queryVector embedding.vector with
      | .error e => .error e
      | .ok similarity =>
        match searchLoop queryVector threshold excludeNoteIds excludeFolders rest with
        | .error e => .error e
        | .ok restResults =>
          if similarity ≥ threshold then
            .ok ({ noteId := embedding.noteId, notePath := embedding.notePath
                   title := embedding.title, similarity := similarity } :: restResults)
          else .ok restResults

/-- Method `SearchSimilarUseCase.execute(query, options)`: embed the query, scan every
    stored record, then sort and truncate. -/

def searchExecute (env : Env) (query : String) (options : SearchOptions) (s : StoreState) :
    Except EmbedError (List SearchResult × StoreState) :=
  match env.embedResult query with
  | .error e => .error e
  | .ok queryVector =>
    match searchLoop queryVector (options.threshold.getD (3 / 10))
        (options.excludeNoteIds.getD []) (options.excludeFolders.getD [])
        ((s.findAll).1) with
    | .error e => .error e
    | .ok results =>
      .ok (limitResults (sortBySimilarity results) (options.limit.getD 10), (s.findAll).2)

/-- Method `SearchSimilarUseCase.findSimilarToNote(noteId, options)`: load the query
    note's own stored vector (`NotFound` when absent), always exclude the query
    note itself, scan, sort and truncate. -/

def findSimilarToNote (noteId : String) (options : SearchOptions) (s : StoreState) :
    Except EmbedError (List SearchResult × StoreState) :=
  match s.findById noteId with
  | none => .error (.noteNotFound noteId)
  | some embedding =>
    match searchLoop embedding.vector (options.threshold.getD (3 / 10))
        ((options.excludeNoteIds.getD []) ++ [noteId]) (options.excludeFolders.getD [])
        ((s.findAll).1) with
    | .error e => .error e
    | .ok results =>
      .ok (limitResults (sortBySimilarity results) (options.limit.getD 10), (s.findAll).2)

/-- Step (3) of the pipeline: score one record against the query vector,
    propagating a `DimensionMismatch`. -/

def scoreRecord (queryVector : List ℚ) (r : NoteEmbedding) :
    Except EmbedError SearchResult :=
  match cosineSimilarity queryVector r.vector with
  | .error e => .error e
  | .ok similarity =>
    .ok { noteId := r.noteId, notePath := r.notePath, title := r.title
          similarity := similarity }

/-- Score every record left to right, propagating the first error. -/

def scoreAll (queryVector : List ℚ) :
    List NoteEmbedding → Except EmbedError (List SearchResult)
  | [] => .ok []
  | r :: rest =>
    match scoreRecord queryVector r with
    | .error e => .error e
    | .ok sr =>
      match scoreAll queryVector rest with
      | .error e => .error e
      | .ok srs => .ok (sr :: srs)

/-- Modelled from the spec (§4.5 filtering and ranking): the fixed six-step
    pipeline the specification prescribes for similarity search — its folder
    exclusion also drops a record whose path *exactly equals* an excluded
    folder, unlike the source's prefix-only test. -/

def specSearchPipeline (queryVector : List ℚ) (records : List NoteEmbedding)
    (limit : Nat) (threshold : ℚ) (excludeNoteIds : List String)
    (excludeFolders : List String) : Except EmbedError (List SearchResult) :=
  match scoreAll queryVector
      ((records.filter (fun r => !(excludeNoteIds.contains r.noteId))).filter
        (fun r => !(excludeFolders.any (fun folder =>
            jsStartsWith r.notePath (folder ++ "/") || r.notePath = folder)))) with
  | .error e => .error e
  | .ok scored =>
    .ok (limitResults (sortBySimilarity (scored.filter (fun r => r.similarity ≥ threshold)))
      limit)

/-- The source's pipeline in the same fixed-step shape: identical to
    `specSearchPipeline` except that the folder-exclusion step tests only the
    `folder ++ "/"` prefix. -/

def codeSearchPipeline (queryVector : List ℚ) (records : List NoteEmbedding)
    (limit : Nat) (threshold : ℚ) (excludeNoteIds : List String)
    (excludeFolders : List String) : Except EmbedError (List SearchResult) :=
  match scoreAll queryVector
      ((records.filter (fun r => !(excludeNoteIds.contains r.noteId))).filter
        (fun r => !(excludeFolders.any (fun folder =>
            jsStartsWith r.notePath (folder ++ "/"))))) with
  | .error e => .error e
  | .ok scored =>
    .ok (limitResults (sortBySimilarity (scored.filter (fun r => r.similarity ≥ threshold)))
      limit)

/-! ## Auto-embed edit coalescing (VaultEmbeddingsPlugin.setupAutoEmbed /
    registerVaultEvents)

The plugin wires `vault.on('modify')` and `vault.on('create')` for markdown
files into `debounce(async (file) => ..., autoEmbedDelay, true)`.  Obsidian's
`debounce` keeps a single timer and only the latest call's arguments: each
notification overwrites the remembered file and resets the timer, and once the
configured interval passes with no further notification the callback runs once,
on that latest file. -/

/-- Debouncer state: the latest notified file path, if any. -/

structure AutoEmbedDebounce where
  pendingFile : Option String
deriving Repr, DecidableEq

/-- One `modify`/`create` notification: remember this file (replacing any
    previous one) and reset the timer. -/

def notifyChange (_s : AutoEmbedDebounce) (path : String) : AutoEmbedDebounce :=
  { pendingFile := some path }

/-- A burst of notifications with no intervening quiet period. -/

def recordBurst (burst : List String) : AutoEmbedDebounce :=
  burst.foldl notifyChange { pendingFile := none }

/-- The debounced callback firing after the quiet period: skip the remembered
    file when it lies under an excluded folder, otherwise dispatch one
    single-document synchronization (`embedNote(generateNoteId(file.path))`).
    The result lists the file paths for which a synchronization call is made. -/

def fireAutoEmbed (excludedFolders : List String) (s : AutoEmbedDebounce) : List String :=
  match s.pendingFile with
  | none => []
  | some path =>
    if excludedFolders.any (fun folder => jsStartsWith path (folder ++ "/")) then []
    else [path]

/-- Synchronization calls dispatched for one burst followed by a quiet period. -/

def autoEmbedCalls (excludedFolders : List String) (burst : List String) : List String :=
  fireAutoEmbed excludedFolders (recordBurst burst)

/-! ## Concrete fixtures used by scenario theorems and counterexamples -/

/-- A one-note vault whose provider and hasher always succeed. -/

def oneNoteEnv : Env :=
  { notes := [{ noteId := "doc1", path := "doc1.md", title := "doc1"
                content := "hello", modifiedAt := 0 }]
    hashFn := fun _ => "h1"
    embedResult := fun _ => .ok []
    model := "text-embedding-3-small", provider := "openai", dimensions := 0 }

/-- A five-note vault whose provider fails exactly on the third note's text. -/

def fiveNoteEnv : Env :=
  { notes :=
      [{ noteId := "d1", path := "d1.md", title := "d1", content := "c1", modifiedAt := 0 },
       { noteId := "d2", path := "d2.md", title := "d2", content := "c2", modifiedAt := 0 },
       { noteId := "d3", path := "d3.md", title := "d3", content := "c3", modifiedAt := 0 },
       { noteId := "d4", path := "d4.md", title := "d4", content := "c4", modifiedAt := 0 },
       { noteId := "d5", path := "d5.md", title := "d5", content := "c5", modifiedAt := 0 }]
    hashFn := fun c => c
    embedResult := fun c => if c = "c3" then .error .providerCallFailed else .ok []
    model := "m", provider := "openai", dimensions := 0 }

/-- The record stored for `doc1` in the skip-scenario store. -/

def skipRecord : NoteEmbedding :=
  { noteId := "doc1", notePath := "doc1.md", title := "doc1", contentHash := "h1"
    vector := [], model := "text-embedding-3-small", provider := "openai"
    dimensions := 0, createdAt := 5, updatedAt := 5 }

/-- A store already holding `doc1` with hash `h1`, matching `oneNoteEnv`'s
    hasher, provider and model. -/

def skipStore : StoreState :=
  { files := [("doc1", skipRecord)]
    indexFile := { version := "1.0.0", totalNotes := 1, lastUpdated := 5
                   model := "text-embedding-3-small", dimensions := 0
                   notes := [("doc1", { path := "doc1.md", contentHash := "h1", updatedAt := 5 })] }
    cache := none }

/-- A vault whose single note now hashes to `h2`, over a store still holding the
    `h1` record from timestamp 100. -/

def staleEnv : Env :=
  { notes := [{ noteId := "doc1", path := "doc1.md", title := "doc1"
                content := "hello v2", modifiedAt := 150 }]
    hashFn := fun _ => "h2"
    embedResult := fun _ => .ok []
    model := "text-embedding-3-small", provider := "openai", dimensions := 0 }

/-- The outdated record: both timestamps read 100. -/

def staleOldRecord : NoteEmbedding :=
  { noteId := "doc1", notePath := "doc1.md", title := "doc1", contentHash := "h1"
    vector := [], model := "text-embedding-3-small", provider := "openai"
    dimensions := 0, createdAt := 100, updatedAt := 100 }

/-- Store holding the outdated record. -/

def staleStore : StoreState :=
  { files := [("doc1", staleOldRecord)]
    indexFile := { version := "1.0.0", totalNotes := 1, lastUpdated := 100
                   model := "text-embedding-3-small", dimensions := 0
                   notes := [("doc1", { path := "doc1.md", contentHash := "h1", updatedAt := 100 })] }
    cache := none }

/-- A provider whose declared dimension count (3) disagrees with the vectors it
    actually returns (length 2). -/

def mismatchedProviderEnv : Env :=
  { notes := [{ noteId := "doc1", path := "doc1.md", title := "doc1"
                content := "hello", modifiedAt := 0 }]
    hashFn := fun _ => "h1"
    embedResult := fun _ => .ok [1, 2]
    model := "m", provider := "p", dimensions := 3 }

/-- Record the honest one-note fixture produces at clock 4. -/

def freshRecord : NoteEmbedding :=
  createNoteEmbedding "doc1" "doc1.md" "doc1" "h1" [] "text-embedding-3-small" "openai" 0 4

/-- A stored record whose path exactly equals the excluded folder name. -/

def privateRecord : NoteEmbedding :=
  { noteId := "n1", notePath := "Private", title := "t", contentHash := "h", vector := [1]
    model := "m", provider := "p", dimensions := 1, createdAt := 0, updatedAt := 0 }

/-- The summary listing only `privateRecord`. -/

def privateIndex : EmbeddingIndex :=
  { version := "1.0.0", totalNotes := 1, lastUpdated := 0, model := "m", dimensions := 1
    notes := [("n1", { path := "Private", contentHash := "h", updatedAt := 0 })] }

/-- A provider answering every query with the unit vector `[1]`. -/

def searchEnv : Env :=
  { notes := [], hashFn := fun _ => "h", embedResult := fun _ => .ok [1]
    model := "m", provider := "p", dimensions := 1 }

/-- A store holding exactly `privateRecord`, summary cache primed. -/

def searchStore : StoreState :=
  { files := [("n1", privateRecord)], indexFile := privateIndex, cache := some privateIndex }

/-- One repository call in a C8 operation sequence. -/

inductive StoreOp where
  | save (e : NoteEmbedding)
  | delete (id : String)
  | updateIndex
deriving Repr

/-- Whether the operation is a `delete`. -/

def StoreOp.isDelete : StoreOp → Bool
  | .delete _ => true
  | _ => false

/-- Apply one repository call. -/

def applyOp (now : Nat) (s : StoreState) : StoreOp → StoreState
  | .save e => s.save e
  | .delete id => s.delete id
  | .updateIndex => s.updateIndex now

/-- Run a sequence of repository calls left to right. -/

def runOps (now : Nat) (s : StoreState) (ops : List StoreOp) : StoreState :=
  ops.foldl (applyOp now) s

/-- C8's consistency property: the summary's `totalNotes` equals the number of
    records `findAll()` materializes. -/

def storeConsistent (s : StoreState) : Prop :=
  ((s.getIndex).1).totalNotes = ((s.findAll).1).length

/-- Every record file sits under the filesystem-safe name of the record it
    holds — true of every file the repository itself writes. -/

def wellKeyed (files : List (String × NoteEmbedding)) : Prop :=
  ∀ p ∈ files, p.1 = safeId p.2.noteId

/-- The inductive invariant behind C8: well-keyed files, a cache that is either
    cold or a copy of the summary file, a summary whose count matches its
    mapping, and a live record file behind every summary entry. -/

def storeInv (s : StoreState) : Prop :=
  wellKeyed s.files ∧
  (s.cache = none ∨ s.cache = some s.indexFile) ∧
  s.indexFile.totalNotes = s.indexFile.notes.length ∧
  ∀ q ∈ s.indexFile.notes, (findEntry? (safeId q.1) s.files).isSome

/-- The record saved, rebuilt over and then deleted in the C8 counterexample. -/

def c8Record : NoteEmbedding :=
  { noteId := "doc1", notePath := "doc1.md", title := "doc1", contentHash := "h", vector := []
    model := "m", provider := "openai", dimensions := 0, createdAt := 0, updatedAt := 0 }

/-! ## Theorems -/

/-- C7: `cosineSimilarity` fails with `DimensionMismatch` exactly when the two
    vectors differ in length, and on equal-length vectors either of which is
    entirely zero (zero norm) it returns `0` rather than erroring. -/
theorem cosineSimilarity_dimension_and_zero_norm (a b : List ℚ) :
    (cosineSimilarity a b = .error .dimensionMismatch ↔ a.length ≠ b.length) ∧
    (a.length = b.length → ((∀ x ∈ a, x = 0) ∨ (∀ x ∈ b, x = 0)) →
      cosineSimilarity a b = .ok 0) := by
  have hsq : ∀ l : List ℚ, (∀ x ∈ l, x = 0) → (l.map fun x => x * x).sum = 0 := by
    intro l hl
    refine List.sum_eq_zero ?_
    intro y hy
    rcases List.mem_map.mp hy with ⟨x, hx, rfl⟩
    rw [hl x hx, mul_zero]
  have hrz : ratSqrt 0 = 0 := by
    simp [ratSqrt]
  constructor
  · unfold cosineSimilarity
    by_cases h : a.length = b.length
    · simp only [h, ne_eq, not_true_eq_false, if_false]
      constructor
      · intro hcontra
        split at hcontra <;> simp_all
      · exact False.elim
    · simp [h]
  · intro hlen hz
    unfold cosineSimilarity
    rw [if_neg (by simp [hlen])]
    rcases hz with hza | hzb
    · rw [hsq a hza]
      simp [hrz]
    · rw [hsq b hzb]
      simp [hrz]

/-- Witness for C7 at concrete inputs: equal-length vectors with a zero left
    vector score `0`. -/
theorem cosineSimilarity_dimension_and_zero_norm_witness :
    cosineSimilarity [(0 : ℚ), 0] [3, 4] = .ok 0 :=
  (cosineSimilarity_dimension_and_zero_norm [0, 0] [3, 4]).2 rfl
    (Or.inl (by intro x hx; simpa using hx))

/-- C1 (the claim fails on the code): `EmbeddingService.embedNote` invokes
    `embeddingRepository.updateIndexEntry(...)` after every updating embed, but
    neither the `IEmbeddingRepository` interface nor `VaultEmbeddingRepository`
    declares or implements such a method, so every `wasUpdated = true` call —
    here a fresh embed of `doc1`, whose underlying use-case step succeeded —
    fails with the JS `TypeError` instead of completing. -/
theorem embedNote_crashes_on_missing_updateIndexEntry :
    "updateIndexEntry" ∉ vaultEmbeddingRepositoryMethods ∧
    updateIndexEntryImpl?.isNone = true ∧
    (execute oneNoteEnv 3 "doc1" none (initialStore 0)).toOption.map
      (fun r => (r.1.wasUpdated, r.1.reason)) = some (true, "new") ∧
    embedNote oneNoteEnv 3 "doc1" (initialStore 0) =
      .error (.methodMissing "updateIndexEntry") := by
  decide

/-- C3 (the claim fails on the code): the auto-embed mechanism is a plain
    trailing-edge debounce that remembers only the *latest* changed file, so in
    a burst touching `a.md` then `b.md`, `a.md` — a distinct document changed
    during the burst — receives zero synchronization calls, not one. -/
theorem autoEmbed_drops_earlier_distinct_document :
    autoEmbedCalls [] ["a.md", "b.md"] = ["b.md"] ∧
    ¬ ((autoEmbedCalls [] ["a.md", "b.md"]).count "a.md" = 1) := by
  decide

/-- C3 amended: after a burst followed by a quiet period, the mechanism
    dispatches exactly one synchronization call in total — for the most recently
    changed document (skipped entirely when that document is under an excluded
    folder); multiple edits to the same document therefore collapse into one
    call, but earlier distinct documents in the burst are dropped. -/
theorem autoEmbed_dispatches_only_latest (excludedFolders : List String)
    (burst : List String) (p : String) :
    autoEmbedCalls excludedFolders (burst ++ [p]) =
      if excludedFolders.any (fun folder => jsStartsWith p (folder ++ "/")) then [] else [p] := by
  unfold autoEmbedCalls recordBurst
  rw [List.foldl_append]
  simp [fireAutoEmbed, notifyChange]

/-- The `embedAllNotes` loop appends to the progress-call log exactly one entry
    per note, in enumeration order, each naming the note about to be processed. -/
theorem embedAllLoop_call_log (env : Env) (now : Nat) :
    ∀ (notes : List NoteContent) (s : StoreState) (p : BatchEmbedProgress)
      (calls : List BatchEmbedProgress),
      ((embedAllLoop env now notes s p calls).2.2).map (fun q => q.currentNote) =
        calls.map (fun q => q.currentNote) ++ notes.map (fun n => some n.path) := by
  intro notes
  induction notes with
  | nil => intro s p calls; simp [embedAllLoop]
  | cons note rest ih =>
    intro s p calls
    unfold embedAllLoop
    cases hE : execute env now note.noteId none s with
    | ok r =>
      rcases r with ⟨result, s', n⟩
      simp only [ih, List.map_append, List.map_cons, List.map_nil]
      simp
    | error e =>
      simp only [ih, List.map_append, List.map_cons, List.map_nil]
      simp

/-- The `embedStaleNotes` loop has the same call-log shape. -/
theorem embedStaleLoop_call_log (env : Env) (now : Nat) :
    ∀ (notes : List NoteContent) (s : StoreState) (p : BatchEmbedProgress) (updated : Nat)
      (calls : List BatchEmbedProgress),
      ((embedStaleLoop env now notes s p updated calls).2.2.2).map (fun q => q.currentNote) =
        calls.map (fun q => q.currentNote) ++ notes.map (fun n => some n.path) := by
  intro notes
  induction notes with
  | nil => intro s p updated calls; simp [embedStaleLoop]
  | cons note rest ih =>
    intro s p updated calls
    unfold embedStaleLoop
    by_cases hH : isHashEqual (s.getContentHash note.noteId).1 (some (env.hashFn note.content))
    · simp only [hH, if_true, ih, List.map_append, List.map_cons, List.map_nil]
      simp
    · simp only [hH, if_false, Bool.false_eq_true]
      cases hE : execute env now note.noteId none (s.getContentHash note.noteId).2 with
      | ok r =>
        rcases r with ⟨result, s', n⟩
        simp only [ih, List.map_append, List.map_cons, List.map_nil]
        simp
      | error e =>
        simp only [ih, List.map_append, List.map_cons, List.map_nil]
        simp

/-- C4: per-document failures inside `embedAllNotes` are caught and counted
    rather than rethrown, the returned aggregate always satisfies
    `success = completed - skipped` against the final progress snapshot, and the
    concrete five-document batch whose third provider call fails completes with
    `completed = 4, failed = 1` and a plain (non-throwing) result value. -/
theorem embedAllNotes_failure_tolerant :
    (∀ (env : Env) (now : Nat) (excludeFolders : List String) (s : StoreState),
      ∃ p, ((embedAllNotes env now excludeFolders s).2.2).getLast? = some p ∧
        p.currentNote = none ∧
        (embedAllNotes env now excludeFolders s).1.success = p.completed - p.skipped ∧
        (embedAllNotes env now excludeFolders s).1.skipped = p.skipped ∧
        (embedAllNotes env now excludeFolders s).1.failed = p.failed) ∧
    (embedAllNotes fiveNoteEnv 7 [] (initialStore 0)).1 =
      { success := 4, skipped := 0, failed := 1 } ∧
    ((embedAllNotes fiveNoteEnv 7 [] (initialStore 0)).2.2).getLast? =
      some { total := 5, completed := 4, skipped := 0, failed := 1, currentNote := none } := by
  refine ⟨fun env now excludeFolders s => ?_, by decide, by decide⟩
  unfold embedAllNotes
  rcases hL : embedAllLoop env now (env.findAllExcluding excludeFolders) s
      { total := (env.findAllExcluding excludeFolders).length, completed := 0, skipped := 0
        failed := 0, currentNote := none } [] with ⟨s₁, p, calls⟩
  refine ⟨{ p with currentNote := none }, ?_, rfl, ?_, ?_, ?_⟩ <;> simp [hL]

/-- C9 (the claim fails on the code): a one-document `embedAllNotes` batch
    fires the progress callback exactly twice — once naming the document and
    once finally with the item cleared — with no separate initial boundary call,
    whereas one-per-document plus an initial and a final boundary call would
    require three invocations. -/
theorem embedAll_no_initial_boundary_call :
    ((embedAllNotes oneNoteEnv 0 [] (initialStore 0)).2.2).map (fun q => q.currentNote) =
      [some "doc1.md", none] ∧
    ((embedAllNotes oneNoteEnv 0 [] (initialStore 0)).2.2).length = 2 ∧
    ¬ ((2 : Nat) = 1 + 2) := by
  decide

/-- C9 amended: within one `embedAllNotes` or `embedStaleNotes` batch over
    the enumerated documents, the progress callback fires exactly once per
    document, in source-enumeration order, naming the about-to-process document,
    plus exactly one final boundary call with the current item cleared — and no
    initial boundary call, for a total of `n + 1` invocations. -/
theorem batch_progress_call_sequence (env : Env) (now : Nat)
    (excludeFolders : List String) (s : StoreState) :
    ((embedAllNotes env now excludeFolders s).2.2).map (fun q => q.currentNote) =
      (env.findAllExcluding excludeFolders).map (fun n => some n.path) ++ [none] ∧
    ((embedStaleNotes env now excludeFolders s).2.2).map (fun q => q.currentNote) =
      (env.findAllExcluding excludeFolders).map (fun n => some n.path) ++ [none] := by
  constructor
  · unfold embedAllNotes
    rcases hL : embedAllLoop env now (env.findAllExcluding excludeFolders) s
        { total := (env.findAllExcluding excludeFolders).length, completed := 0, skipped := 0
          failed := 0, currentNote := none } [] with ⟨s₁, p, calls⟩
    have := embedAllLoop_call_log env now (env.findAllExcluding excludeFolders) s
      { total := (env.findAllExcluding excludeFolders).length, completed := 0, skipped := 0
        failed := 0, currentNote := none } []
    rw [hL] at this
    simp only [List.map_nil, List.nil_append] at this
    simp [hL, this]
  · unfold embedStaleNotes
    rcases hL : embedStaleLoop env now (env.findAllExcluding excludeFolders) s
        { total := (env.findAllExcluding excludeFolders).length, completed := 0, skipped := 0
          failed := 0, currentNote := none } 0 [] with ⟨s₁, p, updated, calls⟩
    have := embedStaleLoop_call_log env now (env.findAllExcluding excludeFolders) s
      { total := (env.findAllExcluding excludeFolders).length, completed := 0, skipped := 0
        failed := 0, currentNote := none } 0 []
    rw [hL] at this
    simp only [List.map_nil, List.nil_append] at this
    simp [hL, this]

/-- Reading `getContentHash` is a read: it can prime the summary cache but leaves the
    record files and the persisted summary untouched. -/
theorem getContentHash_preserves (s : StoreState) (noteId : String) :
    ((s.getContentHash noteId).2).files = s.files ∧
    ((s.getContentHash noteId).2).indexFile = s.indexFile := by
  unfold StoreState.getContentHash StoreState.getIndex
  cases s.cache <;> simp

/-- C2: when the stored hash matches the current content hash and the stored
    record carries the active provider and model, `execute` returns that record
    unchanged with `wasUpdated = false` and `reason = "skipped"`, makes zero
    provider calls, and leaves the record files and persisted summary exactly as
    they were. -/
theorem embedOne_skip_no_provider_call_no_write (env : Env) (now : Nat) (noteId : String)
    (s : StoreState) (note : NoteContent) (existing : NoteEmbedding)
    (hnote : env.findNote noteId = some note)
    (hhash : (s.getContentHash noteId).1 = some (env.hashFn note.content))
    (hrec : ((s.getContentHash noteId).2).findById noteId = some existing)
    (hprov : existing.provider = env.provider) (hmodel : existing.model = env.model) :
    execute env now noteId none s =
      .ok ({ embedding := existing, wasUpdated := false, reason := "skipped" },
        (s.getContentHash noteId).2, 0) ∧
    ((s.getContentHash noteId).2).files = s.files ∧
    ((s.getContentHash noteId).2).indexFile = s.indexFile := by
  refine ⟨?_, getContentHash_preserves s noteId⟩
  unfold execute
  rw [show (none : Option NoteContent).orElse (fun _ => env.findNote noteId) = some note
      from by simpa [Option.orElse] using hnote]
  have hskip : skipCheck env noteId (s.getContentHash noteId).1 (env.hashFn note.content)
      (s.getContentHash noteId).2 = some existing := by
    unfold skipCheck
    rw [hhash]
    simp only [isHashEqual, beq_self_eq_true, if_true, hrec]
    rw [if_pos ⟨hprov, hmodel⟩]
  simp [hskip]

/-- Witness for C2: re-running the embed of unchanged `doc1` under an unchanged
    provider and model yields the stored record, `skipped`, and zero provider
    calls. -/
theorem embedOne_skip_no_provider_call_no_write_witness :
    execute oneNoteEnv 9 "doc1" none skipStore =
      .ok ({ embedding := skipRecord, wasUpdated := false, reason := "skipped" },
        (skipStore.getContentHash "doc1").2, 0) :=
  (embedOne_skip_no_provider_call_no_write oneNoteEnv 9 "doc1" skipStore
    { noteId := "doc1", path := "doc1.md", title := "doc1", content := "hello", modifiedAt := 0 }
    skipRecord (by decide) (by decide) (by decide) rfl rfl).1

/-- C5 (the claim fails on the code): re-embedding changed content does yield
    `reason = "stale"`, `wasUpdated = true`, but the new record's `createdAt` is
    the fresh timestamp 200, **not** the previous record's preserved 100 — a full
    re-embed replaces the whole record, `createdAt` included. -/
theorem embedOne_stale_replaces_createdAt :
    (execute staleEnv 200 "doc1" none staleStore).toOption.map
        (fun r => (r.1.reason, r.1.wasUpdated, r.1.embedding.createdAt)) =
      some ("stale", true, 200) ∧
    (staleStore.findById "doc1").map (fun e => e.createdAt) = some 100 ∧
    ¬ ((200 : Nat) = 100) := by
  decide

/-- C5 amended: on changed content, `execute` re-embeds with
    `reason = "stale"` and `wasUpdated = true`; the new record's `updatedAt` is
    the current clock value — strictly above the replaced record's whenever the
    clock advanced — and its `createdAt` is *reset to that same value* rather
    than preserved. -/
theorem embedOne_stale_updatedAt_increases (env : Env) (now : Nat) (noteId : String)
    (s : StoreState) (note : NoteContent) (storedHash : String) (old : NoteEmbedding)
    (vector : List ℚ)
    (hnote : env.findNote noteId = some note)
    (hhash : (s.getContentHash noteId).1 = some storedHash)
    (hne : (storedHash == env.hashFn note.content) = false)
    (_hold : ((s.getContentHash noteId).2).findById noteId = some old)
    (hvec : env.embedResult note.content = .ok vector)
    (htime : old.updatedAt < now) :
    ∃ r s', execute env now noteId none s = .ok (r, s', 1) ∧
      r.reason = "stale" ∧ r.wasUpdated = true ∧
      old.updatedAt < r.embedding.updatedAt ∧ r.embedding.updatedAt = now ∧
      r.embedding.createdAt = now := by
  unfold execute
  rw [show (none : Option NoteContent).orElse (fun _ => env.findNote noteId) = some note
      from by simpa [Option.orElse] using hnote]
  have hskip : skipCheck env noteId (s.getContentHash noteId).1 (env.hashFn note.content)
      (s.getContentHash noteId).2 = none := by
    unfold skipCheck
    rw [hhash]
    simp [isHashEqual, hne]
  simp only [hskip, hvec]
  refine ⟨_, _, rfl, ?_, rfl, htime, rfl, rfl⟩
  simp [hhash]

/-- Witness for the amended C5 at the concrete stale fixture. -/
theorem embedOne_stale_updatedAt_increases_witness :
    ∃ r s', execute staleEnv 200 "doc1" none staleStore = .ok (r, s', 1) ∧
      r.reason = "stale" ∧ r.wasUpdated = true ∧
      staleOldRecord.updatedAt < r.embedding.updatedAt ∧ r.embedding.updatedAt = 200 ∧
      r.embedding.createdAt = 200 :=
  embedOne_stale_updatedAt_increases staleEnv 200 "doc1" staleStore
    { noteId := "doc1", path := "doc1.md", title := "doc1"
      content := "hello v2", modifiedAt := 150 }
    "h1" staleOldRecord [] (by decide) (by decide) (by decide) (by decide) (by decide)
    (by decide)

/-- C10 (the claim fails on the code): `execute` copies the provider's
    *declared* `getDimensions()` into the record without checking the returned
    vector, so a provider returning a two-element vector while declaring 3
    produces — and persists — a record with `dimensions = 3 ≠ 2 = len(vector)`. -/
theorem embedOne_dimension_field_not_validated :
    (execute mismatchedProviderEnv 0 "doc1" none (initialStore 0)).toOption.map
        (fun r => (r.1.wasUpdated, r.1.embedding.dimensions, r.1.embedding.vector.length)) =
      some (true, 3, 2) ∧
    (execute mismatchedProviderEnv 0 "doc1" none (initialStore 0)).toOption.map
        (fun r => (r.2.1.findById "doc1").map (fun e => (e.dimensions, e.vector.length))) =
      some (some (3, 2)) ∧
    ¬ ((3 : Nat) = 2) := by
  decide

/-- C10 amended: every record freshly constructed and persisted by `execute`
    satisfies `updatedAt ≥ createdAt` (both are the same `now`), and it satisfies
    `dimensions = len(vector)` provided the provider honours its declared
    dimension count on every vector it returns. -/
theorem embedOne_new_record_invariants (env : Env) (now : Nat) (noteId : String)
    (preloadedNote : Option NoteContent) (s : StoreState) (r : EmbedNoteResult)
    (s' : StoreState) (n : Nat)
    (hok : execute env now noteId preloadedNote s = .ok (r, s', n))
    (hupd : r.wasUpdated = true)
    (hhonest : ∀ text v, env.embedResult text = .ok v → v.length = env.dimensions) :
    r.embedding.dimensions = r.embedding.vector.length ∧
    r.embedding.createdAt ≤ r.embedding.updatedAt ∧
    r.embedding.createdAt = now := by
  unfold execute at hok
  split at hok
  · exact absurd hok (by simp)
  · split at hok
    · simp only [Except.ok.injEq, Prod.mk.injEq] at hok
      obtain ⟨h₁, h₂, h₃⟩ := hok
      subst h₁
      exact absurd hupd (by simp)
    · split at hok
      · exact absurd hok (by simp)
      · rename_i vector hv
        simp only [Except.ok.injEq, Prod.mk.injEq] at hok
        obtain ⟨h₁, h₂, h₃⟩ := hok
        subst h₁
        exact ⟨(hhonest _ _ hv).symm, le_refl _, rfl⟩

/-- Witness for the amended C10 at the honest one-note fixture. -/
theorem embedOne_new_record_invariants_witness :
    freshRecord.dimensions = freshRecord.vector.length ∧
    freshRecord.createdAt ≤ freshRecord.updatedAt ∧
    freshRecord.createdAt = 4 :=
  embedOne_new_record_invariants oneNoteEnv 4 "doc1" none (initialStore 0)
    { embedding := freshRecord, wasUpdated := true, reason := "new" }
    { files := [("doc1", freshRecord)], indexFile := createEmptyIndex 0, cache := none } 1
    (by decide) rfl (by intro text v h; cases h; rfl)

/-- A `Bool`-predicate filter keeps a satisfying head. -/
theorem filter_cons_true {α : Type _} (p : α → Bool) (a : α) (l : List α) (h : p a = true) :
    (a :: l).filter p = a :: l.filter p := by
  simp [List.filter_cons, h]

/-- A `Bool`-predicate filter drops a failing head. -/
theorem filter_cons_false {α : Type _} (p : α → Bool) (a : α) (l : List α) (h : p a = false) :
    (a :: l).filter p = l.filter p := by
  simp [List.filter_cons, h]

/-- The per-record scan of `SearchSimilarUseCase.execute` is extensionally the
    filter–score–filter prefix of the fixed-step pipeline. -/
theorem searchLoop_eq (qv : List ℚ) (th : ℚ) (exIds exF : List String) :
    ∀ records : List NoteEmbedding,
      searchLoop qv th exIds exF records =
        match scoreAll qv
            ((records.filter (fun r => !(exIds.contains r.noteId))).filter
              (fun r => !(exF.any (fun folder =>
                jsStartsWith r.notePath (folder ++ "/"))))) with
        | .error e => .error e
        | .ok scored => .ok (scored.filter (fun r => r.similarity ≥ th)) := by
  intro records
  induction records with
  | nil => rfl
  | cons e rest ih =>
    unfold searchLoop
    by_cases h1 : exIds.contains e.noteId
    · rw [if_pos h1, ih, filter_cons_false _ _ _ (by rw [h1]; rfl)]
    · have h1f : exIds.contains e.noteId = false := by simpa using h1
      by_cases h2 : exF.any (fun folder => jsStartsWith e.notePath (folder ++ "/"))
      · rw [if_neg h1, if_pos h2, ih,
          filter_cons_true _ _ _ (by rw [h1f]; rfl),
          filter_cons_false _ _ _ (by rw [h2]; rfl)]
      · have h2f : (exF.any fun folder => jsStartsWith e.notePath (folder ++ "/")) = false := by
          simpa using h2
        rw [if_neg h1, if_neg h2,
          filter_cons_true _ _ _ (by rw [h1f]; rfl),
          filter_cons_true _ _ _ (by rw [h2f]; rfl)]
        cases hc : cosineSimilarity qv e.vector with
        | error err => simp only [scoreAll, scoreRecord, hc]
        | ok sim =>
          rw [ih]
          cases hs : scoreAll qv
              ((rest.filter (fun r => !(exIds.contains r.noteId))).filter
                (fun r => !(exF.any (fun folder =>
                  jsStartsWith r.notePath (folder ++ "/"))))) with
          | error err => simp only [scoreAll, scoreRecord, hc, hs]
          | ok scored =>
            by_cases h3 : sim ≥ th
            · simp only [scoreAll, scoreRecord, hc, hs, List.filter_cons]
              rw [if_pos h3, if_pos (show decide
                (({ noteId := e.noteId, notePath := e.notePath, title := e.title
                    similarity := sim } : SearchResult).similarity ≥ th) = true from by
                  simp [h3])]
            · simp only [scoreAll, scoreRecord, hc, hs, List.filter_cons]
              rw [if_neg h3, if_neg (show ¬ decide
                (({ noteId := e.noteId, notePath := e.notePath, title := e.title
                    similarity := sim } : SearchResult).similarity ≥ th) = true from by
                  simp [h3])]

/-- Sorting and truncating the scan's survivors is the same as running the
    fixed-step code pipeline and pairing its output with the post-read store. -/
theorem searchWrap_eq (qv : List ℚ) (th : ℚ) (exIds exF : List String)
    (all : List NoteEmbedding) (limit : Nat) (s₂ : StoreState) :
    (match searchLoop qv th exIds exF all with
     | .error e => .error e
     | .ok results => .ok (limitResults (sortBySimilarity results) limit, s₂)) =
    (match codeSearchPipeline qv all limit th exIds exF with
     | .error e => (.error e : Except EmbedError (List SearchResult × StoreState))
     | .ok results => .ok (results, s₂)) := by
  rw [searchLoop_eq]
  unfold codeSearchPipeline
  cases scoreAll qv ((all.filter (fun r => !(exIds.contains r.noteId))).filter
      (fun r => !(exF.any (fun folder => jsStartsWith r.notePath (folder ++ "/"))))) <;> rfl

/-- C6 amended: both similarity-search entry points compute exactly the
    fixed-step pipeline — exclusion-set filter, folder filter testing only the
    `folder + "/"` *prefix* (a path exactly equal to an excluded folder is NOT
    dropped), cosine scoring, threshold filter (default 0.3), stable descending
    sort, truncation to the limit (default 10) — with `findSimilarToNote`
    additionally excluding the query note itself. -/
theorem search_is_prefix_only_pipeline (env : Env) (query : String) (noteId : String)
    (options : SearchOptions) (s : StoreState) :
    searchExecute env query options s =
      (match env.embedResult query with
       | .error e => .error e
       | .ok queryVector =>
         match codeSearchPipeline queryVector (s.findAll).1 (options.limit.getD 10)
             (options.threshold.getD (3 / 10)) (options.excludeNoteIds.getD [])
             (options.excludeFolders.getD []) with
         | .error e => .error e
         | .ok results => .ok (results, (s.findAll).2)) ∧
    findSimilarToNote noteId options s =
      (match s.findById noteId with
       | none => .error (.noteNotFound noteId)
       | some embedding =>
         match codeSearchPipeline embedding.vector (s.findAll).1 (options.limit.getD 10)
             (options.threshold.getD (3 / 10)) ((options.excludeNoteIds.getD []) ++ [noteId])
             (options.excludeFolders.getD []) with
         | .error e => .error e
         | .ok results => .ok (results, (s.findAll).2)) := by
  constructor
  · unfold searchExecute
    cases hq : env.embedResult query with
    | error e => rfl
    | ok queryVector =>
      exact searchWrap_eq queryVector (options.threshold.getD (3 / 10))
        (options.excludeNoteIds.getD []) (options.excludeFolders.getD [])
        ((s.findAll).1) (options.limit.getD 10) ((s.findAll).2)
  · unfold findSimilarToNote
    cases hid : s.findById noteId with
    | none => rfl
    | some embedding =>
      exact searchWrap_eq embedding.vector (options.threshold.getD (3 / 10))
        ((options.excludeNoteIds.getD []) ++ [noteId]) (options.excludeFolders.getD [])
        ((s.findAll).1) (options.limit.getD 10) ((s.findAll).2)

/-- C6 (the claim fails on the code): with `excludeFolders = ["Private"]` and
    a stored record whose path is exactly `"Private"`, the search keeps the
    record (its path does not start with `"Private/"`), while the specified
    pipeline — whose folder exclusion also drops exact matches — returns no
    result. -/
theorem search_keeps_path_equal_to_excluded_folder :
    (searchExecute searchEnv "q" { excludeFolders := some ["Private"] } searchStore).toOption.map
        (fun r => r.1.map (fun x => x.noteId)) = some ["n1"] ∧
    specSearchPipeline [1] [privateRecord] 10 (3 / 10) [] ["Private"] = .ok [] := by
  have hcos : cosineSimilarity [(1 : ℚ)] [1] = .ok 1 := by
    norm_num [cosineSimilarity, ratSqrt]
  have hfa : searchStore.findAll = ([privateRecord], searchStore) := by decide
  have hkeep : ([privateRecord].filter (fun r => !(([] : List String).contains r.noteId))).filter
      (fun r => !(["Private"].any (fun folder =>
        jsStartsWith r.notePath (folder ++ "/")))) = [privateRecord] := by decide
  have hscore : scoreAll [(1 : ℚ)] [privateRecord] =
      .ok [{ noteId := "n1", notePath := "Private", title := "t", similarity := 1 }] := by
    unfold scoreAll scoreRecord
    rw [show cosineSimilarity [(1 : ℚ)] privateRecord.vector = .ok 1 from hcos]
    rfl
  have hloop : searchLoop [(1 : ℚ)] ((3 : ℚ) / 10) [] ["Private"] [privateRecord] =
      .ok [{ noteId := "n1", notePath := "Private", title := "t", similarity := 1 }] := by
    rw [searchLoop_eq, hkeep, hscore]
    norm_num [List.filter_cons]
  constructor
  · have hv : searchExecute searchEnv "q" { excludeFolders := some ["Private"] } searchStore =
        .ok ([{ noteId := "n1", notePath := "Private", title := "t", similarity := 1 }],
          searchStore) := by
      show (match searchLoop [(1 : ℚ)] ((3 : ℚ) / 10) [] ["Private"]
            ((searchStore.findAll).1) with
          | .error e => (.error e : Except EmbedError (List SearchResult × StoreState))
          | .ok results =>
            .ok (limitResults (sortBySimilarity results) 10, (searchStore.findAll).2)) =
        .ok ([{ noteId := "n1", notePath := "Private", title := "t", similarity := 1 }],
          searchStore)
      rw [show (searchStore.findAll).1 = [privateRecord] from by rw [hfa],
        show (searchStore.findAll).2 = searchStore from by rw [hfa], hloop]
      simp [sortBySimilarity, limitResults]
    rw [hv]
    rfl
  · have hdrop : ([privateRecord].filter (fun r => !(([] : List String).contains r.noteId))).filter
        (fun r => !(["Private"].any (fun folder =>
          jsStartsWith r.notePath (folder ++ "/") || r.notePath = folder))) = [] := by decide
    unfold specSearchPipeline
    rw [hdrop]
    simp [scoreAll, sortBySimilarity, limitResults]

/-- A lookup succeeds exactly when the key occurs among the stored keys. -/
theorem findEntry?_isSome_iff {α : Type _} (k : String) (l : List (String × α)) :
    (findEntry? k l).isSome ↔ k ∈ l.map Prod.fst := by
  induction l with
  | nil => simp [findEntry?]
  | cons p rest ih =>
    by_cases h : p.1 = k
    · simp [findEntry?, h]
    · simp [findEntry?, h, ih, Ne.symm h]

/-- Assignment `setEntry` keeps the existing keys, appending the new key when absent. -/
theorem setEntry_map_fst {α : Type _} (k : String) (v : α) (l : List (String × α)) :
    (setEntry k v l).map Prod.fst =
      if l.any (fun p => p.1 = k) then l.map Prod.fst else l.map Prod.fst ++ [k] := by
  unfold setEntry
  split
  · rw [List.map_map]
    refine List.map_congr_left ?_
    intro p _
    by_cases hk : p.1 = k
    · simp [hk]
    · simp [hk]
  · simp

/-- An entry of `setEntry k v l` is an old entry or the new pair. -/
theorem mem_setEntry {α : Type _} {p : String × α} (k : String) (v : α)
    (l : List (String × α)) (h : p ∈ setEntry k v l) : p ∈ l ∨ p = (k, v) := by
  unfold setEntry at h
  split at h
  · rcases List.mem_map.mp h with ⟨q, hq, hqe⟩
    by_cases hk : q.1 = k
    · right
      rw [← hqe]
      simp [hk]
    · left
      rw [← hqe]
      simpa [hk] using hq
  · rcases List.mem_append.mp h with h' | h'
    · exact Or.inl h'
    · right
      simpa using h'

/-- A `filterMap` that never drops anything preserves length. -/
theorem filterMap_length_of_isSome {α β : Type _} (f : α → Option β) :
    ∀ l : List α, (∀ a ∈ l, (f a).isSome) → (l.filterMap f).length = l.length := by
  intro l
  induction l with
  | nil => intro _; rfl
  | cons a rest ih =>
    intro h
    rcases Option.isSome_iff_exists.mp (h a (List.mem_cons_self a rest)) with ⟨b, hb⟩
    rw [List.filterMap_cons, hb]
    simp [ih (fun x hx => h x (List.mem_cons_of_mem a hx))]

/-- Every entry of the rebuilt summary mapping names the id of some record file. -/
theorem foldl_setEntry_mem (l : List (String × NoteEmbedding)) :
    ∀ (acc : List (String × IndexEntry)) (q : String × IndexEntry),
      q ∈ l.foldl (fun acc p =>
        setEntry p.2.noteId ⟨p.2.notePath, p.2.contentHash, p.2.updatedAt⟩ acc) acc →
      q ∈ acc ∨ ∃ p ∈ l, q.1 = p.2.noteId := by
  induction l with
  | nil =>
    intro acc q h
    exact Or.inl h
  | cons p rest ih =>
    intro acc q h
    rcases ih _ q h with h' | ⟨p', hp', he⟩
    · rcases mem_setEntry _ _ _ h' with h'' | h''
      · exact Or.inl h''
      · refine Or.inr ⟨p, List.mem_cons_self p rest, ?_⟩
        rw [h'']
    · exact Or.inr ⟨p', List.mem_cons_of_mem p hp', he⟩

/-- The inductive invariant yields C8's consistency property. -/
theorem storeInv_consistent (s : StoreState) (h : storeInv s) : storeConsistent s := by
  rcases h with ⟨_, hc, ht, hl⟩
  have hidx : (s.getIndex).1 = s.indexFile := by
    rcases hc with hc | hc <;> simp [StoreState.getIndex, hc]
  have hfiles : ((s.getIndex).2).files = s.files := by
    rcases hc with hc | hc <;> simp [StoreState.getIndex, hc]
  unfold storeConsistent StoreState.findAll
  simp only [StoreState.findById]
  rw [hidx, hfiles, ht]
  exact (filterMap_length_of_isSome _ _ (fun q hq => hl q hq)).symm

/-- The fresh store satisfies the invariant. -/
theorem storeInv_initial (now : Nat) : storeInv (initialStore now) := by
  refine ⟨?_, Or.inr rfl, rfl, ?_⟩
  · intro p hp
    simp [initialStore] at hp
  · intro q hq
    simp [initialStore, createEmptyIndex] at hq

/-- Operation `save` keeps the files well-keyed. -/
theorem wellKeyed_save (s : StoreState) (e : NoteEmbedding) (hw : wellKeyed s.files) :
    wellKeyed (s.save e).files := by
  intro p hp
  rcases mem_setEntry _ _ _ hp with h | h
  · exact hw p h
  · rw [h]

/-- Every operation keeps the files well-keyed. -/
theorem wellKeyed_applyOp (now : Nat) (s : StoreState) (op : StoreOp)
    (hw : wellKeyed s.files) : wellKeyed (applyOp now s op).files := by
  cases op with
  | save e => exact wellKeyed_save s e hw
  | delete id =>
    intro p hp
    exact hw p (List.mem_of_mem_filter hp)
  | updateIndex => exact hw

/-- A whole sequence keeps the files well-keyed. -/
theorem wellKeyed_runOps (now : Nat) (ops : List StoreOp) :
    ∀ s : StoreState, wellKeyed s.files → wellKeyed (runOps now s ops).files := by
  induction ops with
  | nil => intro s hw; exact hw
  | cons op rest ih =>
    intro s hw
    exact ih (applyOp now s op) (wellKeyed_applyOp now s op hw)

/-- A full rebuild restores the invariant from well-keyed files alone. -/
theorem storeInv_updateIndex (s : StoreState) (now : Nat) (hw : wellKeyed s.files) :
    storeInv (s.updateIndex now) := by
  refine ⟨hw, Or.inr rfl, rfl, ?_⟩
  intro q hq
  rcases foldl_setEntry_mem s.files [] q hq with h | ⟨p, hp, he⟩
  · simp at h
  · rw [findEntry?_isSome_iff, he, ← hw p hp]
    exact List.mem_map.mpr ⟨p, hp, rfl⟩

/-- Operation `save` preserves the invariant. -/
theorem storeInv_save (s : StoreState) (e : NoteEmbedding) (h : storeInv s) :
    storeInv (s.save e) := by
  rcases h with ⟨hw, _, ht, hl⟩
  refine ⟨wellKeyed_save s e hw, Or.inl rfl, ht, ?_⟩
  intro q hq
  have := hl q hq
  rw [findEntry?_isSome_iff] at this ⊢
  show safeId q.1 ∈ (setEntry (safeId e.noteId) e s.files).map Prod.fst
  rw [setEntry_map_fst]
  split
  · exact this
  · exact List.mem_append.mpr (Or.inl this)

/-- Delete-free sequences preserve the invariant. -/
theorem storeInv_runOps_deleteFree (now : Nat) (ops : List StoreOp) :
    ∀ s : StoreState, storeInv s → (∀ op ∈ ops, op.isDelete = false) →
      storeInv (runOps now s ops) := by
  induction ops with
  | nil => intro s h _; exact h
  | cons op rest ih =>
    intro s h hdf
    have hrest : ∀ op' ∈ rest, op'.isDelete = false :=
      fun op' h' => hdf op' (List.mem_cons_of_mem op h')
    have hstep : storeInv (applyOp now s op) := by
      cases op with
      | save e => exact storeInv_save s e h
      | delete id =>
        have := hdf (.delete id) (List.mem_cons_self _ rest)
        simp [StoreOp.isDelete] at this
      | updateIndex => exact storeInv_updateIndex s now h.1
    exact ih (applyOp now s op) hstep hrest

/-- C8 (the claim fails on the code): `delete` removes the record file and
    only invalidates the in-memory cache, leaving the persisted summary with a
    dangling entry: after `save; updateIndex; delete`, `getIndex().total` is
    still 1 while `findAll()` returns no record. -/
theorem delete_desyncs_index :
    ((runOps 1 (initialStore 0)
        [.save c8Record, .updateIndex, .delete "doc1"]).getIndex).1.totalNotes = 1 ∧
    (((runOps 1 (initialStore 0)
        [.save c8Record, .updateIndex, .delete "doc1"]).findAll).1).length = 0 ∧
    ¬ ((1 : Nat) = 0) := by
  decide

/-- C8 amended: starting from an initialized store, `getIndex().total`
    equals `|findAll()|` after any sequence of `save` and `updateIndex` calls
    (no `delete`), and after any sequence whatsoever that ends with an
    `updateIndex` rebuild; a `delete` not followed by `updateIndex` may break
    the equality. -/
theorem storeConsistency_without_delete (now now₀ : Nat) (ops : List StoreOp) :
    ((∀ op ∈ ops, op.isDelete = false) →
      storeConsistent (runOps now (initialStore now₀) ops)) ∧
    storeConsistent (runOps now (initialStore now₀) (ops ++ [.updateIndex])) := by
  constructor
  · intro hdf
    exact storeInv_consistent _
      (storeInv_runOps_deleteFree now ops (initialStore now₀) (storeInv_initial now₀) hdf)
  · unfold runOps
    rw [List.foldl_append]
    exact storeInv_consistent _
      (storeInv_updateIndex _ now
        (wellKeyed_runOps now ops (initialStore now₀) (fun p hp => by
          simp [initialStore] at hp)))

/-- Witness for the amended C8 at a one-save sequence. -/
theorem storeConsistency_without_delete_witness :
    storeConsistent (runOps 1 (initialStore 0) [.save c8Record]) ∧
    storeConsistent (runOps 1 (initialStore 0) ([.save c8Record] ++ [.updateIndex])) :=
  ⟨(storeConsistency_without_delete 1 0 [.save c8Record]).1
      (by intro op h; simp at h; rw [h]; rfl),
    (storeConsistency_without_delete 1 0 [.save c8Record]).2⟩

end VaultEmb
